import Mathlib

/-!
Shallow embedding of the room session manager of the Realtime-Code-Editor
backend (src/backend/index.js) together with the durable Room record shape
(the mongoose schema).  Socket.io side effects are modelled as an explicit
list of emitted messages; MongoDB calls are modelled on an association list
of room records, with a boolean flag per call site saying whether the call
succeeds (a `false` flag means the awaited call throws and control jumps to
the surrounding catch block, exactly as in the JS source).
-/

namespace RTCE

/-- A value carried by an outbound socket message.  `undef` models the JS
value `undefined`, which arises when a destructured payload field is
missing. -/
inductive Payload where
  | str (s : String)
  | users (l : List String)
  | undef
  deriving DecidableEq, Repr

/-- One outbound socket.io message.
`toSelf` models `socket.emit` (point-to-point to the handling connection),
`toRoom` models `io.to(room).emit` (every connection in the room),
`toOthers` models `socket.to(room).emit` (every connection in the room
except the sender). -/
inductive Emit where
  | toSelf (event : String) (p : Payload)
  | toRoom (room : String) (event : String) (p : Payload)
  | toOthers (room : String) (event : String) (p : Payload)
  deriving DecidableEq, Repr

/-- The event name of an outbound message. -/
def eventName : Emit → String
  | .toSelf e _ => e
  | .toRoom _ e _ => e
  | .toOthers _ e _ => e

/-- The `socket.emit` (point-to-point) messages of a trace. -/
def selfEmits (es : List Emit) : List Emit :=
  es.filter fun e => match e with
    | .toSelf _ _ => true
    | _ => false

/-- A durable Room record (models/Room.js).  Timestamps are abstract
naturals. -/
structure RoomRecord where
  roomId : String
  code : String
  language : String
  createdAt : Nat
  lastModified : Nat
  activeUsers : List String
  deriving DecidableEq, Repr

/-- `Room.findOne({ roomId })`: first record with the given id. -/
def dbFind : List RoomRecord → String → Option RoomRecord
  | [], _ => none
  | r :: rest, rid => if r.roomId = rid then some r else dbFind rest rid

/-- `Room.findOneAndUpdate({ roomId }, { activeUsers })` (no upsert):
update the first matching record, leave the store unchanged when absent. -/
def dbSetActiveUsers : List RoomRecord → String → List String → List RoomRecord
  | [], _, _ => []
  | r :: rest, rid, us =>
    if r.roomId = rid then { r with activeUsers := us } :: rest
    else r :: dbSetActiveUsers rest rid us

/-- `Room.findOneAndUpdate({ roomId }, { code, lastModified }, { upsert })`.
`c = none` models a payload with a missing `code` field (the JS value
`undefined`, which mongoose strips from the update).  On upsert-insert the
schema defaults apply. -/
def dbUpsertCode (db : List RoomRecord) (rid : String) (c : Option String)
    (now : Nat) : List RoomRecord :=
  match db with
  | [] => [{ roomId := rid, code := c.getD "", language := "javascript",
             createdAt := now, lastModified := now, activeUsers := [] }]
  | r :: rest =>
    if r.roomId = rid then
      { r with code := c.getD r.code, lastModified := now } :: rest
    else r :: dbUpsertCode rest rid c now

/-- The in-memory presence table `activeRooms : Map⟨roomId, Set⟨userName⟩⟩`.
A JS Map is insertion ordered with unique keys; a JS Set of strings is an
insertion-ordered list without duplicates. -/
abbrev PresenceTable := List (String × List String)

/-- `activeRooms.get(k)` (first matching key, as in a JS Map). -/
def mapGet : PresenceTable → String → Option (List String)
  | [], _ => none
  | p :: rest, k => if p.1 = k then some p.2 else mapGet rest k

/-- `activeRooms.set(k, v)`: replace in place when the key exists,
append otherwise. -/
def mapSet : PresenceTable → String → List String → PresenceTable
  | [], k, v => [(k, v)]
  | p :: rest, k, v =>
    if p.1 = k then (k, v) :: rest else p :: mapSet rest k v

/-- `set.add(u)` on a JS Set: no-op when present, append otherwise. -/
def setAdd (s : List String) (u : String) : List String :=
  if u ∈ s then s else s ++ [u]

/-- `set.delete(u)` on a JS Set. -/
def setDelete (s : List String) (u : String) : List String :=
  s.filter fun v => v ≠ u

/-- The whole server state the handlers act on: the in-memory presence
table plus the durable Document Store. -/
structure ServerState where
  activeRooms : PresenceTable
  db : List RoomRecord
  deriving DecidableEq, Repr

/-- Per-connection session state: the closure variables `currentRoom` and
`currentUser` of the connection handler, plus the set of socket.io rooms
the socket is subscribed to (mutated by `socket.join` / `socket.leave`). -/
structure Conn where
  currentRoom : Option String
  currentUser : Option String
  rooms : List String
  deriving DecidableEq, Repr

/-- Result of running one event handler: the new server state, the new
connection session, and the outbound messages in emission order. -/
structure HandlerResult where
  state : ServerState
  conn : Conn
  emits : List Emit
  deriving DecidableEq, Repr

/-- Lines 53-70 of the `join` handler: leave the previous room if one is
set (`socket.leave`, removal from the in-memory set, broadcast of the
shrunk list, best-effort persistence whose failure is caught by the inner
try and only logged — `dbPrevOk` says whether that inner call succeeds). -/
def joinLeavePrev (st : ServerState) (conn : Conn) (dbPrevOk : Bool) :
    PresenceTable × List RoomRecord × Conn × List Emit :=
  match conn.currentRoom with
  | some prev =>
    let conn' := { conn with rooms := setDelete conn.rooms prev }
    match mapGet st.activeRooms prev with
    | some users =>
      let users' := match conn.currentUser with
        | some u => setDelete users u
        | none => users
      let ar := mapSet st.activeRooms prev users'
      let db := if dbPrevOk then dbSetActiveUsers st.db prev users' else st.db
      (ar, db, conn', [Emit.toRoom prev "userJoined" (Payload.users users')])
    | none => (st.activeRooms, st.db, conn', [])
  | none => (st.activeRooms, st.db, conn, [])

/-- The `join` handler (index.js lines 51-121).  `dbPrevOk` is whether the
inner `Room.findOneAndUpdate` for the previous room succeeds (its failure
is caught by the inner try and only logged); `dbOk` is whether the outer
Document Store calls (`findOne` / `save`) succeed — when `false` the
awaited call throws and the catch block of lines 110-120 runs. -/
def joinHandler (st : ServerState) (conn : Conn) (roomId userName : String)
    (dbPrevOk dbOk : Bool) (now : Nat) : HandlerResult :=
  -- lines 53-70: leave previous room if exists
  let step1 := joinLeavePrev st conn dbPrevOk
  let ar1 := step1.1
  let db1 := step1.2.1
  let conn1 := step1.2.2.1
  let emits1 := step1.2.2.2
  -- lines 72-74: currentRoom = roomId; currentUser = userName; socket.join
  let conn2 := { conn1 with currentRoom := some roomId,
                            currentUser := some userName,
                            rooms := setAdd conn1.rooms roomId }
  -- lines 76-80: initialize active users for this room and add userName
  let ar2 := mapSet ar1 roomId (setAdd ((mapGet ar1 roomId).getD []) userName)
  if dbOk then
    -- lines 82-108: find or create room, then emit code/language/user list
    let found := dbFind db1 roomId
    let db2 := match found with
      | none =>
        db1 ++ [{ roomId := roomId, code := "", language := "javascript",
                  createdAt := now, lastModified := now,
                  activeUsers := (mapGet ar2 roomId).getD [] }]
      | some _ => dbSetActiveUsers db1 roomId ((mapGet ar2 roomId).getD [])
    let roomCode := match found with
      | none => ""
      | some r => r.code
    let roomLang := match found with
      | none => "javascript"
      | some r => r.language
    { state := ⟨ar2, db2⟩, conn := conn2,
      emits := emits1 ++
        [Emit.toSelf "codeUpdate" (Payload.str roomCode),
         Emit.toSelf "languageUpdate" (Payload.str roomLang),
         Emit.toRoom roomId "userJoined"
           (Payload.users ((mapGet ar2 roomId).getD []))] }
  else
    -- lines 110-120: catch block — error to the socket, fallback re-add,
    -- broadcast of the in-memory list; the durable store is unchanged by
    -- the failed call
    let ar3 := mapSet ar2 roomId (setAdd ((mapGet ar2 roomId).getD []) userName)
    { state := ⟨ar3, db1⟩, conn := conn2,
      emits := emits1 ++
        [Emit.toSelf "error" (Payload.str "Failed to join room"),
         Emit.toRoom roomId "userJoined"
           (Payload.users ((mapGet ar3 roomId).getD []))] }

/-- The payload value a (possibly missing) destructured `code` field turns
into when emitted. -/
def codePayload : Option String → Payload
  | some s => Payload.str s
  | none => Payload.undef

/-- The `codeChange` handler (index.js lines 123-143).  `code = none`
models a payload whose `code` field is missing (`undefined` after
destructuring): the `findOneAndUpdate` still runs (mongoose strips the
undefined field), the `code.length` in the log line throws a TypeError
that the catch block swallows, and the broadcast on line 142 — outside the
try/catch — still runs, forwarding whatever value `code` holds. -/
def codeChangeHandler (st : ServerState) (roomId : String)
    (code : Option String) (dbOk : Bool) (now : Nat) :
    ServerState × List Emit :=
  let db' := if dbOk then dbUpsertCode st.db roomId code now else st.db
  (⟨st.activeRooms, db'⟩, [Emit.toOthers roomId "codeUpdate" (codePayload code)])

/-- The `typing` handler (index.js lines 195-197): a pure relay to the
other members of the room, no state change. -/
def typingHandler (st : ServerState) (roomId userName : String) :
    ServerState × List Emit :=
  (st, [Emit.toOthers roomId "userTyping" (Payload.str userName)])

/-- The `leaveRoom` handler (index.js lines 167-193).  `dbOk` is whether
the awaited `Room.findOneAndUpdate` succeeds; when it throws, the
broadcast, `socket.leave` and the clearing of `currentRoom`/`currentUser`
(all placed after the await inside the try) are skipped and the catch
block only logs. -/
def leaveRoomHandler (st : ServerState) (conn : Conn) (dbOk : Bool) :
    HandlerResult :=
  match conn.currentRoom, conn.currentUser with
  | some room, some user =>
    (match mapGet st.activeRooms room with
     | some users =>
       let users' := setDelete users user
       let ar' := mapSet st.activeRooms room users'
       if dbOk then
         { state := ⟨ar', dbSetActiveUsers st.db room users'⟩,
           conn := { conn with rooms := setDelete conn.rooms room,
                               currentRoom := none, currentUser := none },
           emits := [Emit.toRoom room "userJoined" (Payload.users users')] }
       else
         -- the user was already removed from the in-memory set before the
         -- failing await; everything after the await is skipped
         { state := ⟨ar', st.db⟩, conn := conn, emits := [] }
     | none =>
       -- no presence entry: no db call, no broadcast; socket.leave and the
       -- clearing still run (nothing can throw)
       { state := st,
         conn := { conn with rooms := setDelete conn.rooms room,
                             currentRoom := none, currentUser := none },
         emits := [] })
  | _, _ => { state := st, conn := conn, emits := [] }

/-- The `disconnect` handler (index.js lines 199-222): like `leaveRoom`
but it never calls `socket.leave` and never clears
`currentRoom`/`currentUser`. -/
def disconnectHandler (st : ServerState) (conn : Conn) (dbOk : Bool) :
    HandlerResult :=
  match conn.currentRoom, conn.currentUser with
  | some room, some user =>
    (match mapGet st.activeRooms room with
     | some users =>
       let users' := setDelete users user
       let ar' := mapSet st.activeRooms room users'
       if dbOk then
         { state := ⟨ar', dbSetActiveUsers st.db room users'⟩,
           conn := conn,
           emits := [Emit.toRoom room "userJoined" (Payload.users users')] }
       else
         { state := ⟨ar', st.db⟩, conn := conn, emits := [] }
     | none => { state := st, conn := conn, emits := [] })
  | _, _ => { state := st, conn := conn, emits := [] }

/-- `cleanupEmptyRooms` (index.js lines 33-40): drop every presence entry
whose user set is empty. -/
def cleanupEmptyRooms (ar : PresenceTable) : PresenceTable :=
  ar.filter fun p => !p.2.isEmpty

/-- One run of the idle-room reaper on the whole server state: it only
touches the presence table, the Document Store is not an input of the
sweep. -/
def reaperRun (st : ServerState) : ServerState :=
  ⟨cleanupEmptyRooms st.activeRooms, st.db⟩

/-! ### Helper lemmas -/

lemma mapGet_mapSet_self (m : PresenceTable) (k : String) (v : List String) :
    mapGet (mapSet m k v) k = some v := by
  induction m with
  | nil => simp [mapSet, mapGet]
  | cons p rest ih =>
    by_cases h : p.1 = k
    · simp [mapSet, mapGet, h]
    · simp [mapSet, mapGet, h, ih]

lemma mem_setAdd_self (s : List String) (u : String) : u ∈ setAdd s u := by
  unfold setAdd
  by_cases h : u ∈ s <;> simp [h]

lemma dbFind_setActiveUsers_none {db : List RoomRecord} {p r : String}
    {us : List String} (h : dbFind db r = none) :
    dbFind (dbSetActiveUsers db p us) r = none := by
  induction db with
  | nil => simp [dbSetActiveUsers, dbFind]
  | cons rec rest ih =>
    unfold dbFind at h
    by_cases hr : rec.roomId = r
    · simp [hr] at h
    · simp only [hr, if_false] at h
      unfold dbSetActiveUsers
      by_cases hp : rec.roomId = p
      · have hpr : ¬ p = r := fun e => hr (hp.trans e)
        simp [hp, dbFind, hpr, h]
      · simp [hp, dbFind, hr, ih h]

lemma dbFind_append_none {db : List RoomRecord} {r : String}
    (h : dbFind db r = none) (l : List RoomRecord) :
    dbFind (db ++ l) r = dbFind l r := by
  induction db with
  | nil => simp
  | cons rec rest ih =>
    unfold dbFind at h
    by_cases hr : rec.roomId = r
    · simp [hr] at h
    · simp only [hr, if_false] at h
      simpa [dbFind, hr] using ih h

lemma joinLeavePrev_dbFind_none (st : ServerState) (conn : Conn)
    (dbPrevOk : Bool) {r : String} (h : dbFind st.db r = none) :
    dbFind (joinLeavePrev st conn dbPrevOk).2.1 r = none := by
  unfold joinLeavePrev
  split
  · split
    · cases dbPrevOk <;> simp [h, dbFind_setActiveUsers_none h]
    · simpa using h
  · simpa using h

lemma joinLeavePrev_emits_shape (st : ServerState) (conn : Conn)
    (dbPrevOk : Bool) :
    (joinLeavePrev st conn dbPrevOk).2.2.2 = [] ∨
    ∃ p l, (joinLeavePrev st conn dbPrevOk).2.2.2
      = [Emit.toRoom p "userJoined" (Payload.users l)] := by
  unfold joinLeavePrev
  split
  · split
    · exact Or.inr ⟨_, _, rfl⟩
    · exact Or.inl rfl
  · exact Or.inl rfl

/-! ### Claim theorems -/

/-- C1, counterexample: a connection joined to room "r" issues `leaveRoom`
while the Document Store write fails; no `userJoined` broadcast is emitted
(the broadcast sits after the failing `await` inside the try block), and
likewise for `disconnect`.  This refutes the claim that the updated user
list is broadcast even when persistence fails. -/
theorem leave_persist_failure_drops_broadcast_cex :
    (leaveRoomHandler ⟨[("r", ["alice", "bob"])], []⟩
        ⟨some "r", some "alice", ["r"]⟩ false).emits = []
    ∧ (disconnectHandler ⟨[("r2", ["carol", "dave"])], []⟩
        ⟨some "r2", some "carol", ["r2"]⟩ false).emits = [] := ⟨rfl, rfl⟩

/-- C1 (amended): on Leave or Disconnect of a joined connection whose room
has a presence entry, the updated user list is broadcast only when the
Document Store write succeeds; when it fails, the failure is caught
(non-fatal, the in-memory removal survives and the durable store is left
unchanged) but no broadcast is emitted. -/
theorem leave_disconnect_broadcast_only_when_persisted :
    ∀ (st : ServerState) (conn : Conn) (r u : String) (users : List String),
    conn.currentRoom = some r → conn.currentUser = some u →
    mapGet st.activeRooms r = some users →
    ((leaveRoomHandler st conn true).emits
        = [Emit.toRoom r "userJoined" (Payload.users (setDelete users u))]
     ∧ (leaveRoomHandler st conn false).emits = []
     ∧ mapGet (leaveRoomHandler st conn false).state.activeRooms r
        = some (setDelete users u)
     ∧ (leaveRoomHandler st conn false).state.db = st.db
     ∧ (disconnectHandler st conn true).emits
        = [Emit.toRoom r "userJoined" (Payload.users (setDelete users u))]
     ∧ (disconnectHandler st conn false).emits = []) := by
  intro st conn r u users hr hu hm
  simp [leaveRoomHandler, disconnectHandler, hr, hu, hm, mapGet_mapSet_self]

theorem leave_disconnect_broadcast_only_when_persisted_witness :
    (leaveRoomHandler ⟨[("w1", ["ann", "ben"])], []⟩
        ⟨some "w1", some "ann", ["w1"]⟩ false).emits = [] :=
  (leave_disconnect_broadcast_only_when_persisted
    ⟨[("w1", ["ann", "ben"])], []⟩ ⟨some "w1", some "ann", ["w1"]⟩
    "w1" "ann" ["ann", "ben"] rfl rfl rfl).2.1

/-- C5, counterexample: a `leaveRoom` whose Document Store write fails
leaves `currentRoom` (and `currentUser`) set — the clearing sits after the
failing `await` inside the try block; and `disconnect` never clears them
even when the write succeeds.  This refutes the claim that the session
always transitions to UNJOINED. -/
theorem leave_persist_failure_keeps_session_cex :
    (leaveRoomHandler ⟨[("roomX", ["dana"])], []⟩
        ⟨some "roomX", some "dana", ["roomX"]⟩ false).conn.currentRoom
      = some "roomX"
    ∧ (disconnectHandler ⟨[("roomY", ["erin"])], []⟩
        ⟨some "roomY", some "erin", ["roomY"]⟩ true).conn.currentRoom
      = some "roomY" := ⟨rfl, rfl⟩

/-- C5 (amended): after an explicit Leave, `currentRoom`/`currentUser` are
cleared when the persistence step succeeds (or when the room has no
presence entry, where no store call is made); when the room has a presence
entry and persistence fails, the session state is left untouched, and
Disconnect never clears the session state at all. -/
theorem session_cleared_only_on_leave_success :
    ∀ (st : ServerState) (conn : Conn) (r u : String),
    conn.currentRoom = some r → conn.currentUser = some u →
    ((∀ users, mapGet st.activeRooms r = some users →
        ((leaveRoomHandler st conn true).conn.currentRoom = none
         ∧ (leaveRoomHandler st conn true).conn.currentUser = none)
        ∧ (leaveRoomHandler st conn false).conn = conn)
     ∧ (mapGet st.activeRooms r = none →
        ∀ dbOk, (leaveRoomHandler st conn dbOk).conn.currentRoom = none
         ∧ (leaveRoomHandler st conn dbOk).conn.currentUser = none)
     ∧ ∀ dbOk, (disconnectHandler st conn dbOk).conn = conn) := by
  intro st conn r u hr hu
  refine ⟨fun users hm => ?_, fun hm dbOk => ?_, fun dbOk => ?_⟩
  · simp [leaveRoomHandler, hr, hu, hm]
  · simp [leaveRoomHandler, hr, hu, hm]
  · cases hm : mapGet st.activeRooms r <;> cases dbOk <;>
      simp [disconnectHandler, hr, hu, hm]

theorem session_cleared_only_on_leave_success_witness :
    (leaveRoomHandler ⟨[("w2", ["cara"])], []⟩
        ⟨some "w2", some "cara", ["w2"]⟩ true).conn.currentRoom = none :=
  (((session_cleared_only_on_leave_success ⟨[("w2", ["cara"])], []⟩
      ⟨some "w2", some "cara", ["w2"]⟩ "w2" "cara" rfl rfl).1
    ["cara"] rfl).1).1

/-- C2, counterexample: a connection already joined to "room1" as "alice"
(the only member) issues a Join for the very same room; the handler's
first emitted message is a `userJoined` broadcast to "room1" carrying the
empty user list — alice was first removed from the room's presence entry
and a list without her was broadcast, refuting the claim that a Join to
the current room skips the implicit Leave. -/
theorem join_same_room_transient_removal_cex :
    (joinHandler ⟨[("room1", ["alice"])], []⟩
        ⟨some "room1", some "alice", ["room1"]⟩
        "room1" "alice" true true 0).emits.head?
      = some (Emit.toRoom "room1" "userJoined" (Payload.users [])) := rfl

/-- C2 (amended): Join performs the implicit Leave whenever
`connection.currentRoom` is set, regardless of whether it differs from the
target `roomId`; whenever the previous room has a presence entry, the
first emitted message is the `userJoined` broadcast to the previous room
with the connection's user removed — in particular a Join to the room the
connection is already in first removes the user and broadcasts a user
list without them. -/
theorem join_implicit_leave_whenever_joined :
    ∀ (st : ServerState) (conn : Conn) (prev u : String)
      (users : List String) (roomId userName : String)
      (dbPrevOk dbOk : Bool) (now : Nat),
    conn.currentRoom = some prev → conn.currentUser = some u →
    mapGet st.activeRooms prev = some users →
    (joinHandler st conn roomId userName dbPrevOk dbOk now).emits.head?
      = some (Emit.toRoom prev "userJoined"
          (Payload.users (setDelete users u))) := by
  intro st conn prev u users roomId userName dbPrevOk dbOk now hr hu hm
  cases dbOk <;> simp [joinHandler, joinLeavePrev, hr, hu, hm]

theorem join_implicit_leave_whenever_joined_witness :
    (joinHandler ⟨[("p", ["vic", "wes"])], []⟩ ⟨some "p", some "vic", ["p"]⟩
        "q" "vic" true true 3).emits.head?
      = some (Emit.toRoom "p" "userJoined" (Payload.users ["wes"])) :=
  join_implicit_leave_whenever_joined ⟨[("p", ["vic", "wes"])], []⟩
    ⟨some "p", some "vic", ["p"]⟩ "p" "vic" ["vic", "wes"] "q" "vic"
    true true 3 rfl rfl rfl

/-- C3: for every Edit (`codeChange`), whether or not the Document Store
upsert succeeds, the emitted messages are exactly one `codeUpdate`
broadcast to the other connections of the room (`socket.to(roomId)`,
which excludes the sender), and no point-to-point message is sent back to
the sender. -/
theorem codeChange_always_broadcasts_excluding_sender :
    ∀ (st : ServerState) (roomId : String) (code : Option String)
      (dbOk : Bool) (now : Nat),
    (codeChangeHandler st roomId code dbOk now).2
      = [Emit.toOthers roomId "codeUpdate" (codePayload code)]
    ∧ selfEmits (codeChangeHandler st roomId code dbOk now).2 = [] := by
  intro st roomId code dbOk now
  exact ⟨rfl, rfl⟩

/-- C6, counterexample: a `codeChange` whose payload is missing the `code`
field (destructured to `undefined`) still emits a `codeUpdate` broadcast
to the other connections of the room, carrying the undefined value —
refuting the claim that a malformed event never propagates a message to
other connections. -/
theorem codeChange_missing_code_propagates_cex :
    Emit.toOthers "r" "codeUpdate" Payload.undef
      ∈ (codeChangeHandler ⟨[("r", ["alice", "bob"])], []⟩ "r" none true 0).2
    := by decide

/-- C6 (amended): a `codeChange` with a missing `code` field is neither
dropped nor rejected: the handler completes without an unhandled fault
(the TypeError raised by `code.length` is swallowed by the catch block)
and still broadcasts the undefined code value to the other connections of
the room; no error is reported to the sender. -/
theorem codeChange_missing_code_still_broadcasts :
    ∀ (st : ServerState) (roomId : String) (dbOk : Bool) (now : Nat),
    (codeChangeHandler st roomId none dbOk now).2
      = [Emit.toOthers roomId "codeUpdate" Payload.undef]
    ∧ selfEmits (codeChangeHandler st roomId none dbOk now).2 = [] := by
  intro st roomId dbOk now
  exact ⟨rfl, rfl⟩

/-- C10: neither `codeChange` nor `typing` touches the presence table —
the in-memory `activeRooms` map (hence every room's user set) is the same
before and after either handler runs (`typing` changes no server state at
all). -/
theorem codeChange_typing_preserve_presence :
    ∀ (st : ServerState) (roomId : String) (code : Option String)
      (dbOk : Bool) (now : Nat) (userName : String),
    (codeChangeHandler st roomId code dbOk now).1.activeRooms
      = st.activeRooms
    ∧ (typingHandler st roomId userName).1 = st := by
  intro st roomId code dbOk now userName
  exact ⟨rfl, rfl⟩

/-- C4: when the Document Store is unreachable during Join (the catch
block of lines 110-120 runs), the operation does not abort: the userName
is still present in the in-memory presence entry of the room, the updated
user list (taken from the in-memory set) is still broadcast to the room,
and the joining connection receives an `error` notification. -/
theorem join_degraded_presence_and_broadcast :
    ∀ (st : ServerState) (conn : Conn) (roomId userName : String)
      (dbPrevOk : Bool) (now : Nat),
    userName ∈ (mapGet (joinHandler st conn roomId userName dbPrevOk
        false now).state.activeRooms roomId).getD []
    ∧ Emit.toSelf "error" (Payload.str "Failed to join room")
        ∈ (joinHandler st conn roomId userName dbPrevOk false now).emits
    ∧ Emit.toRoom roomId "userJoined"
        (Payload.users ((mapGet (joinHandler st conn roomId userName
            dbPrevOk false now).state.activeRooms roomId).getD []))
        ∈ (joinHandler st conn roomId userName dbPrevOk false now).emits := by
  intro st conn roomId userName dbPrevOk now
  refine ⟨?_, ?_, ?_⟩ <;>
    simp [joinHandler, mapGet_mapSet_self, mem_setAdd_self]

/-- C9: in the degraded Join path (Document Store unreachable) no
`codeUpdate` or `languageUpdate` message is emitted at all; the only
point-to-point message the joining connection receives is the `error`
notification, and it is subscribed to the target room, so it shares the
`userJoined` broadcast. -/
theorem join_degraded_no_code_or_language_messages :
    ∀ (st : ServerState) (conn : Conn) (roomId userName : String)
      (dbPrevOk : Bool) (now : Nat),
    (∀ e ∈ (joinHandler st conn roomId userName dbPrevOk false now).emits,
        eventName e ≠ "codeUpdate" ∧ eventName e ≠ "languageUpdate")
    ∧ selfEmits (joinHandler st conn roomId userName dbPrevOk
          false now).emits
        = [Emit.toSelf "error" (Payload.str "Failed to join room")]
    ∧ roomId ∈ (joinHandler st conn roomId userName dbPrevOk
          false now).conn.rooms := by
  intro st conn roomId userName dbPrevOk now
  rcases joinLeavePrev_emits_shape st conn dbPrevOk with h | ⟨p, l, h⟩ <;>
    refine ⟨?_, ?_, ?_⟩ <;>
    simp [joinHandler, h, selfEmits, eventName, mem_setAdd_self]

theorem join_degraded_no_code_or_language_messages_witness :
    selfEmits (joinHandler ⟨[], []⟩ ⟨none, none, []⟩
        "wr" "wu" true false 4).emits
      = [Emit.toSelf "error" (Payload.str "Failed to join room")] :=
  (join_degraded_no_code_or_language_messages ⟨[], []⟩ ⟨none, none, []⟩
    "wr" "wu" true 4).2.1

/-- C7: a successful Join into a room with no durable record creates a
durable record for it with empty code, language "javascript", and an
activeUsers snapshot containing the joining user. -/
theorem join_new_room_creates_record :
    ∀ (st : ServerState) (conn : Conn) (roomId userName : String)
      (dbPrevOk : Bool) (now : Nat),
    dbFind st.db roomId = none →
    ∃ rec, dbFind (joinHandler st conn roomId userName dbPrevOk
        true now).state.db roomId = some rec
      ∧ rec.code = "" ∧ rec.language = "javascript"
      ∧ userName ∈ rec.activeUsers := by
  intro st conn roomId userName dbPrevOk now h
  have h1 := joinLeavePrev_dbFind_none st conn dbPrevOk (r := roomId) h
  refine ⟨⟨roomId, "", "javascript", now, now,
    setAdd ((mapGet (joinLeavePrev st conn dbPrevOk).1 roomId).getD [])
      userName⟩, ?_, rfl, rfl, mem_setAdd_self _ _⟩
  simp [joinHandler, h1, dbFind_append_none h1, dbFind, mapGet_mapSet_self]

theorem join_new_room_creates_record_witness :
    ∃ rec, dbFind (joinHandler ⟨[], []⟩ ⟨none, none, []⟩
        "R" "U" true true 7).state.db "R" = some rec
      ∧ rec.code = "" ∧ rec.language = "javascript"
      ∧ "U" ∈ rec.activeUsers :=
  join_new_room_creates_record ⟨[], []⟩ ⟨none, none, []⟩ "R" "U" true 7 rfl

/-- C8: one run of the idle-room reaper deletes exactly the presence
entries whose user set is empty — no empty entry survives, an entry
survives iff it has at least one user (and surviving entries keep their
contents and relative order, being a sublist), and the durable Document
Store is untouched. -/
theorem reaper_removes_exactly_empty_entries :
    (∀ (ar : PresenceTable) (r : String),
        (r, ([] : List String)) ∉ cleanupEmptyRooms ar)
    ∧ (∀ (ar : PresenceTable) (r : String) (us : List String),
        (r, us) ∈ cleanupEmptyRooms ar ↔ (r, us) ∈ ar ∧ us ≠ [])
    ∧ (∀ ar : PresenceTable, List.Sublist (cleanupEmptyRooms ar) ar)
    ∧ (∀ st : ServerState, (reaperRun st).db = st.db) := by
  have key : ∀ (ar : PresenceTable) (r : String) (us : List String),
      (r, us) ∈ cleanupEmptyRooms ar ↔ (r, us) ∈ ar ∧ us ≠ [] := by
    intro ar r us
    unfold cleanupEmptyRooms
    rw [List.mem_filter]
    cases us <;> simp
  refine ⟨?_, key, ?_, ?_⟩
  · intro ar r h
    exact ((key ar r []).mp h).2 rfl
  · intro ar
    exact List.filter_sublist _
  · intro st
    rfl

theorem reaper_removes_exactly_empty_entries_witness :
    ("B", ["u1"]) ∈ cleanupEmptyRooms [("A", ([] : List String)), ("B", ["u1"])]
    ∧ ("A", ([] : List String))
        ∉ cleanupEmptyRooms [("A", ([] : List String)), ("B", ["u1"])] :=
  ⟨(reaper_removes_exactly_empty_entries.2.1 _ "B" ["u1"]).mpr
      ⟨by decide, by decide⟩,
   reaper_removes_exactly_empty_entries.1 _ "A"⟩

end RTCE
